import Mathlib

/-!
Verification of the peer-crawling engine of this repository against its
natural-language specification.  The Python sources are shallowly embedded:
byte strings become `List Nat` (each element a byte value), machine integers
become `Nat` with explicit reduction modulo powers of two, `struct.unpack`
failures and `ValueError` become `Except Unit`, and the asynchronous crawl
loop becomes a fuel-indexed state-transition function with peer sessions
folded in selection order (the source runs on a single-threaded cooperative
scheduler, so one interleaving is executed per batch).
-/

/-! ## Byte-string helpers (struct.pack / struct.unpack little- and big-endian) -/

/-- Little-endian decoding of a byte list: `struct.unpack` with formats
`<H`, `<I`, `<Q` applied to an exact-width slice. -/
def leDec (bs : List Nat) : Nat := bs.foldr (fun b acc => b + 256 * acc) 0

/-- Little-endian encoding of `n` into `k` bytes: `struct.pack` with
formats `<B`, `<H`, `<I`, `<Q`. -/
def leEnc : Nat → Nat → List Nat
  | 0, _ => []
  | k + 1, n => n % 256 :: leEnc k (n / 256)

/-- Big-endian decoding of a byte list: `struct.unpack` with format `>H`. -/
def beDec (bs : List Nat) : Nat := bs.foldl (fun acc b => acc * 256 + b) 0

/-- Big-endian encoding of `n` into `k` bytes: `struct.pack` with format
`>H` (and the 8-byte length suffix of SHA-256 padding). -/
def beEnc (k n : Nat) : List Nat := (leEnc k n).reverse

theorem leEnc_length : ∀ (k n : Nat), (leEnc k n).length = k
  | 0, _ => rfl
  | k + 1, n => by simp [leEnc, leEnc_length k]

theorem beEnc_length (k n : Nat) : (beEnc k n).length = k := by
  simp [beEnc, leEnc_length]

theorem leDec_leEnc : ∀ (k n : Nat), n < 256 ^ k → leDec (leEnc k n) = n
  | 0, n, h => by
    simp [leEnc, leDec]
    omega
  | k + 1, n, h => by
    have hdiv : n / 256 < 256 ^ k := by
      have h2 : n < 256 ^ k * 256 := by rw [← pow_succ]; exact h
      omega
    have ih := leDec_leEnc k (n / 256) hdiv
    simp only [leEnc, leDec, List.foldr] at ih ⊢
    rw [ih]
    omega

/-! ## Variable-length integers (bitcoin_protocol.varint_encode / varint_decode) -/

/-- From `bitcoin_protocol.varint_encode`: four encodings selected by the
value: `< 0xFD` one literal byte; `≤ 0xFFFF` marker `0xFD` plus 2 bytes LE;
`≤ 0xFFFFFFFF` marker `0xFE` plus 4 bytes; otherwise marker `0xFF` plus 8. -/
def varint_encode (value : Nat) : List Nat :=
  if value < 0xFD then [value]
  else if value ≤ 0xFFFF then 0xFD :: leEnc 2 value
  else if value ≤ 0xFFFFFFFF then 0xFE :: leEnc 4 value
  else 0xFF :: leEnc 8 value

/-- From `bitcoin_protocol.varint_decode`: reads the marker byte at
`offset` and the matching little-endian field; a `ValueError` for
insufficient data is modelled as `Except.error ()`. -/
def varint_decode (data : List Nat) (offset : Nat) : Except Unit (Nat × Nat) :=
  if data.length ≤ offset then .error ()
  else
    let first := data.getD offset 0
    if first < 0xFD then .ok (first, offset + 1)
    else if first = 0xFD then
      if data.length < offset + 3 then .error ()
      else .ok (leDec ((data.drop (offset + 1)).take 2), offset + 3)
    else if first = 0xFE then
      if data.length < offset + 5 then .error ()
      else .ok (leDec ((data.drop (offset + 1)).take 4), offset + 5)
    else
      if data.length < offset + 9 then .error ()
      else .ok (leDec ((data.drop (offset + 1)).take 8), offset + 9)

/-! ## SHA-256 (hashlib.sha256, used for frame checksums) -/

/-- Word reduction modulo `2^32`. -/
def w32 (n : Nat) : Nat := n % 4294967296

/-- Right rotation of a 32-bit word by `n` places. -/
def rotr (n x : Nat) : Nat := x / 2 ^ n + x % 2 ^ n * 2 ^ (32 - n)

/-- SHA-256 choice function `(x ∧ y) ⊕ (¬x ∧ z)`. -/
def shaCh (x y z : Nat) : Nat :=
  Nat.xor (Nat.land x y) (Nat.land (Nat.xor x 4294967295) z)

/-- SHA-256 majority function. -/
def shaMaj (x y z : Nat) : Nat :=
  Nat.xor (Nat.xor (Nat.land x y) (Nat.land x z)) (Nat.land y z)

/-- SHA-256 big sigma-0. -/
def bsig0 (x : Nat) : Nat := Nat.xor (Nat.xor (rotr 2 x) (rotr 13 x)) (rotr 22 x)

/-- SHA-256 big sigma-1. -/
def bsig1 (x : Nat) : Nat := Nat.xor (Nat.xor (rotr 6 x) (rotr 11 x)) (rotr 25 x)

/-- SHA-256 small sigma-0. -/
def ssig0 (x : Nat) : Nat := Nat.xor (Nat.xor (rotr 7 x) (rotr 18 x)) (x / 2 ^ 3)

/-- SHA-256 small sigma-1. -/
def ssig1 (x : Nat) : Nat := Nat.xor (Nat.xor (rotr 17 x) (rotr 19 x)) (x / 2 ^ 10)

/-- SHA-256 round constants. -/
def shaK : List Nat :=
  [1116352408, 1899447441, 3049323471, 3921009573, 961987163, 1508970993,
   2453635748, 2870763221, 3624381080, 310598401, 607225278, 1426881987,
   1925078388, 2162078206, 2614888103, 3248222580, 3835390401, 4022224774,
   264347078, 604807628, 770255983, 1249150122, 1555081692, 1996064986,
   2554220882, 2821834349, 2952996808, 3210313671, 3336571891, 3584528711,
   113926993, 338241895, 666307205, 773529912, 1294757372, 1396182291,
   1695183700, 1986661051, 2177026350, 2456956037, 2730485921, 2820302411,
   3259730800, 3345764771, 3516065817, 3600352804, 4094571909, 275423344,
   430227734, 506948616, 659060556, 883997877, 958139571, 1322822218,
   1537002063, 1747873779, 1955562222, 2024104815, 2227730452, 2361852424,
   2428436474, 2756734187, 3204031479, 3329325298]

/-- SHA-256 initial hash state. -/
def shaH0 : List Nat :=
  [1779033703, 3144134277, 1013904242, 2773480762, 1359893119, 2600822924,
   528734635, 1541459225]

/-- Group the first `4 * k` bytes of a block into `k` big-endian 32-bit words. -/
def toWords : Nat → List Nat → List Nat
  | 0, _ => []
  | k + 1, bs => beDec (bs.take 4) :: toWords k (bs.drop 4)

/-- Message-schedule extension: append `k` further words to the schedule. -/
def wextend : Nat → List Nat → List Nat
  | 0, ws => ws
  | k + 1, ws =>
    wextend k (ws ++ [w32 (ssig1 (ws.getD (ws.length - 2) 0) + ws.getD (ws.length - 7) 0 +
      ssig0 (ws.getD (ws.length - 15) 0) + ws.getD (ws.length - 16) 0)])

/-- One SHA-256 compression round on the eight-word working state. -/
def compressStep (st : List Nat) (kw : Nat) : List Nat :=
  let a := st.getD 0 0
  let b := st.getD 1 0
  let c := st.getD 2 0
  let d := st.getD 3 0
  let e := st.getD 4 0
  let f := st.getD 5 0
  let g := st.getD 6 0
  let h := st.getD 7 0
  let t1 := w32 (h + bsig1 e + shaCh e f g + kw)
  let t2 := w32 (bsig0 a + shaMaj a b c)
  [w32 (t1 + t2), a, b, c, w32 (d + t1), e, f, g]

/-- Process one 64-byte block, updating the eight-word hash state. -/
def processBlock (h : List Nat) (block : List Nat) : List Nat :=
  let ws := wextend 48 (toWords 16 block)
  let kws := (shaK.zip ws).map (fun p => w32 (p.1 + p.2))
  let st := kws.foldl compressStep h
  (h.zip st).map (fun p => w32 (p.1 + p.2))

/-- Fold the compression function over `k` consecutive 64-byte blocks. -/
def shaBlocks : Nat → List Nat → List Nat → List Nat
  | 0, h, _ => h
  | k + 1, h, bs => shaBlocks k (processBlock h (bs.take 64)) (bs.drop 64)

/-- SHA-256 padding: `0x80`, zeros to 56 mod 64, then the 64-bit big-endian
bit length. -/
def shaPad (msg : List Nat) : List Nat :=
  msg ++ [128] ++ List.replicate ((119 - msg.length % 64) % 64) 0 ++ beEnc 8 (8 * msg.length)

/-- SHA-256 digest of a byte string, as 32 bytes. -/
def sha256 (msg : List Nat) : List Nat :=
  let padded := shaPad msg
  let h := shaBlocks (padded.length / 64) shaH0 padded
  h.foldr (fun w acc => beEnc 4 w ++ acc) []

/-- Double SHA-256, whose first four bytes are the frame checksum
(`hashlib.sha256(hashlib.sha256(payload).digest()).digest()[:4]`). -/
def dsha (payload : List Nat) : List Nat := sha256 (sha256 payload)

theorem compressStep_length (st : List Nat) (kw : Nat) : (compressStep st kw).length = 8 := rfl

theorem foldl_compressStep_length :
    ∀ (l : List Nat) (h : List Nat), h.length = 8 → (l.foldl compressStep h).length = 8
  | [], _, hh => hh
  | _ :: t, h, _ => by
    simpa [List.foldl] using foldl_compressStep_length t _ (compressStep_length h _)

theorem processBlock_length (h b : List Nat) (hh : h.length = 8) :
    (processBlock h b).length = 8 := by
  simp [processBlock, List.length_zip, foldl_compressStep_length _ _ hh, hh]

theorem shaBlocks_length :
    ∀ (k : Nat) (h bs : List Nat), h.length = 8 → (shaBlocks k h bs).length = 8
  | 0, _, _, hh => hh
  | k + 1, h, _, hh => shaBlocks_length k _ _ (processBlock_length h _ hh)

theorem digest_fold_length (h : List Nat) :
    (h.foldr (fun w acc => beEnc 4 w ++ acc) []).length = 4 * h.length := by
  induction h with
  | nil => rfl
  | cons w t ih => simp [List.foldr, beEnc_length, ih]; omega

theorem sha256_length (msg : List Nat) : (sha256 msg).length = 32 := by
  have h8 : (shaBlocks ((shaPad msg).length / 64) shaH0 (shaPad msg)).length = 8 :=
    shaBlocks_length _ _ _ rfl
  simp [sha256, digest_fold_length, h8]

theorem dsha_length (payload : List Nat) : (dsha payload).length = 32 :=
  sha256_length _

/-! ## Message framing (bitcoin_protocol.create_message / parse_message) -/

/-- Network magic of mainnet, `0xD9B4BEF9`. -/
def MAINNET_MAGIC : Nat := 0xD9B4BEF9

/-- Command bytes of `MSG_VERACK`: the ASCII of `verack` plus six NULs. -/
def MSG_VERACK : List Nat := [0x76, 0x65, 0x72, 0x61, 0x63, 0x6B, 0, 0, 0, 0, 0, 0]

/-- Strip trailing NUL bytes, as `bytes.rstrip` with a NUL argument does. -/
def rstripZeros (l : List Nat) : List Nat :=
  (l.reverse.dropWhile (fun b => b == 0)).reverse

/-- From `bitcoin_protocol.create_message`: truncate the command to 12
bytes, pad it with NULs, and concatenate magic, command, little-endian
length, the first four checksum bytes and the payload. -/
def create_message (command payload : List Nat) (magic : Nat) : List Nat :=
  let command_padded := command.take 12 ++ List.replicate (12 - (command.take 12).length) 0
  leEnc 4 magic ++ command_padded ++ leEnc 4 payload.length ++ (dsha payload).take 4 ++ payload

/-- From `bitcoin_protocol.create_verack_message`: a `verack` frame with an
empty payload on the default mainnet magic. -/
def create_verack_message : List Nat := create_message MSG_VERACK [] MAINNET_MAGIC

/-- From `bitcoin_protocol.parse_message`: reject a frame shorter than the
24-byte header, with a magic other than mainnet, with a length field above
2 MiB, with fewer than `24 + length` bytes, or with a checksum mismatch;
otherwise return the NUL-stripped command and the payload. -/
def parse_message (data : List Nat) : Option (List Nat × List Nat) :=
  if data.length < 24 then none
  else
    let magic := leDec (data.take 4)
    if magic ≠ MAINNET_MAGIC then none
    else
      let command := rstripZeros ((data.drop 4).take 12)
      let length := leDec ((data.drop 16).take 4)
      let checksum := (data.drop 20).take 4
      if 2 * 1024 * 1024 < length then none
      else if data.length < 24 + length then none
      else
        let payload := (data.drop 24).take length
        if (dsha payload).take 4 ≠ checksum then none
        else some (command, payload)

/-! ## Address-list parsing (bitcoin_protocol.parse_addr_message) -/

/-- Decimal rendering of one byte, as Python's `str` of an int. -/
def byteStr (b : Nat) : String := Nat.repr b

/-- The join `'.'.join(...)` over the rendered bytes. -/
def joinDots (parts : List String) : String :=
  match parts with
  | [] => ""
  | p :: ps => ps.foldl (fun acc q => acc ++ "." ++ q) p

/-- Exact-width `struct.unpack` of a little-endian field: Python raises
`struct.error` when the slice is not exactly `k` bytes. -/
def unpackLE (k : Nat) (bs : List Nat) : Except Unit Nat :=
  if bs.length = k then .ok (leDec bs) else .error ()

/-- Exact-width `struct.unpack` of the big-endian 2-byte port field. -/
def unpackBE2 (bs : List Nat) : Except Unit Nat :=
  if bs.length = 2 then .ok (beDec bs) else .error ()

/-- The record loop of `parse_addr_message`, with the `struct` failures
surfaced in `Except`.  Each iteration reads a 30-byte record at `offset`:
4-byte timestamp, 8-byte services, 16-byte IP and 2-byte port.  A record
whose IP field is not 12 zero bytes followed by `FF FF` advances the offset
by 30 in total and is dropped; a matching record renders the slice
`ip_bytes[14:18]` — which Python clips to the two bytes 14 and 15 — as a
dot-joined decimal string. -/
def addrLoopE (data : List Nat) : Nat → Nat → List (String × Nat × Nat) →
    Except Unit (List (String × Nat × Nat))
  | 0, _, acc => .ok acc
  | k + 1, offset, acc =>
    if data.length < offset + 30 then .ok acc
    else
      match unpackLE 4 ((data.drop offset).take 4) with
      | .error e => .error e
      | .ok timestamp =>
        match unpackLE 8 ((data.drop (offset + 4)).take 8) with
        | .error e => .error e
        | .ok _services =>
          let ip_bytes := (data.drop (offset + 12)).take 16
          if ip_bytes.take 12 = List.replicate 12 0 ∧ (ip_bytes.drop 12).take 2 = [0xFF, 0xFF] then
            let ip := joinDots (((ip_bytes.drop 14).take 4).map byteStr)
            match unpackBE2 ((data.drop (offset + 28)).take 2) with
            | .error e => .error e
            | .ok port => addrLoopE data k (offset + 30) (acc ++ [(ip, port, timestamp)])
          else
            addrLoopE data k (offset + 30) acc

/-- From `bitcoin_protocol.parse_addr_message`: an empty input yields `[]`;
otherwise the leading var-int count is read and at most
`min(count, 1000)` records are parsed; any `ValueError`, `struct.error`
or `IndexError` is caught and yields `[]`. -/
def parse_addr_message (data : List Nat) : List (String × Nat × Nat) :=
  if data.length < 1 then []
  else
    match varint_decode data 0 with
    | .error _ => []
    | .ok (count, offset) =>
      match addrLoopE data (min count 1000) offset [] with
      | .error _ => []
      | .ok addresses => addresses

/-- Reference rendering of the record loop, following the specification
sentence that on any structural error the addresses parsed so far are
returned: every would-raise point returns the accumulator instead. -/
def addrLoopSoFar (data : List Nat) : Nat → Nat → List (String × Nat × Nat) →
    List (String × Nat × Nat)
  | 0, _, acc => acc
  | k + 1, offset, acc =>
    if data.length < offset + 30 then acc
    else
      match unpackLE 4 ((data.drop offset).take 4) with
      | .error _ => acc
      | .ok timestamp =>
        match unpackLE 8 ((data.drop (offset + 4)).take 8) with
        | .error _ => acc
        | .ok _services =>
          let ip_bytes := (data.drop (offset + 12)).take 16
          if ip_bytes.take 12 = List.replicate 12 0 ∧ (ip_bytes.drop 12).take 2 = [0xFF, 0xFF] then
            let ip := joinDots (((ip_bytes.drop 14).take 4).map byteStr)
            match unpackBE2 ((data.drop (offset + 28)).take 2) with
            | .error _ => acc
            | .ok port => addrLoopSoFar data k (offset + 30) (acc ++ [(ip, port, timestamp)])
          else
            addrLoopSoFar data k (offset + 30) acc

/-- Reference semantics of the whole parser under partial-results error
handling: a failing var-int count returns the (empty) list parsed so far. -/
def parse_addr_so_far (data : List Nat) : List (String × Nat × Nat) :=
  if data.length < 1 then []
  else
    match varint_decode data 0 with
    | .error _ => []
    | .ok (count, offset) => addrLoopSoFar data (min count 1000) offset []

/-! ## Address filter (crawler.is_private_ip)

The source delegates classification to the standard `ipaddress` module;
the embedding models that module's behavior on IPv4 dotted-quad strings —
the only address form the codec ever produces — and treats every other
string as raising `ValueError`, which `is_private_ip` turns into `True`
(rejected).  The private-network table is the module's IPv4 table. -/

/-- Split a character list at the dots, as `str.split` with a dot does:
the result always has one more group than there are dots. -/
def splitDots : List Char → List (List Char)
  | [] => [[]]
  | c :: cs =>
    if c = Char.ofNat 46 then [] :: splitDots cs
    else
      match splitDots cs with
      | [] => [[c]]
      | g :: gs => (c :: g) :: gs

/-- Parse one dotted-quad octet: one to three ASCII digits, no leading
zero on a multi-digit group, value at most 255. -/
def parseOctet (cs : List Char) : Option Nat :=
  if cs.length = 0 ∨ 3 < cs.length then none
  else if ¬ cs.all (fun c => c.isDigit) then none
  else if 1 < cs.length ∧ cs.headD (Char.ofNat 48) = Char.ofNat 48 then none
  else
    let n := cs.foldl (fun a c => a * 10 + (c.toNat - 48)) 0
    if 255 < n then none else some n

/-- Parse an IPv4 dotted-quad string into its four octets. -/
def ipv4_parse (s : String) : Option (Nat × Nat × Nat × Nat) :=
  match (splitDots s.toList).map parseOctet with
  | [some a, some b, some c, some d] => some (a, b, c, d)
  | _ => none

/-- The `ipaddress` IPv4 private-network table. -/
def ipv4_is_private (q : Nat × Nat × Nat × Nat) : Bool :=
  let a := q.1
  let b := q.2.1
  let c := q.2.2.1
  let d := q.2.2.2
  a = 0 || a = 10 || a = 127 || (a = 169 && b = 254) ||
  (a = 172 && 16 ≤ b && b ≤ 31) ||
  (a = 192 && b = 0 && c = 0 && d ≤ 7) ||
  (a = 192 && b = 0 && c = 0 && (d = 170 || d = 171)) ||
  (a = 192 && b = 0 && c = 2) || (a = 192 && b = 168) ||
  (a = 198 && (b = 18 || b = 19)) || (a = 198 && b = 51 && c = 100) ||
  (a = 203 && b = 0 && c = 113) || 240 ≤ a

/-- The `ipaddress` IPv4 loopback network `127.0.0.0/8`. -/
def ipv4_is_loopback (q : Nat × Nat × Nat × Nat) : Bool := q.1 = 127

/-- The `ipaddress` IPv4 link-local network `169.254.0.0/16`. -/
def ipv4_is_link_local (q : Nat × Nat × Nat × Nat) : Bool := q.1 = 169 && q.2.1 = 254

/-- From `crawler.is_private_ip`: `True` for private, loopback or
link-local addresses, and for strings on which address parsing raises. -/
def is_private_ip (ip : String) : Bool :=
  match ipv4_parse ip with
  | none => true
  | some q => ipv4_is_private q || ipv4_is_loopback q || ipv4_is_link_local q

/-! ## Crawl scheduler (crawler.BitcoinNodeCrawler)

The four mutable collections of the crawler object are carried in a state
record; Python sets over `(ip, port)` pairs become duplicate-free lists with
insertion order as iteration order.  One peer session is summarised by the
observable outcome the remote produces: the TCP connect fails (the outer
`except` adds the endpoint to `failed`), the protocol exchange fails after
connecting (the session returns `None` without touching `failed`), or the
session completes and hands back the peers parsed from `addr` frames. -/

/-- Network endpoint: an `(ip, port)` pair. -/
abbrev Endpoint := String × Nat

/-- The mutable sets of `BitcoinNodeCrawler`. -/
structure CrawlState where
  discovered : List Endpoint
  crawled : List Endpoint
  failed : List Endpoint
  node_data : List Endpoint
deriving DecidableEq

/-- The freshly constructed crawler: all collections empty. -/
def initState : CrawlState := ⟨[], [], [], []⟩

/-- Observable outcome of one peer session. -/
inductive SessionResult where
  | connectFail
  | protoFail
  | ok (peers : List (String × Nat × Nat))

/-- Set insertion on the list model: append if not yet present. -/
def setInsert (e : Endpoint) (l : List Endpoint) : List Endpoint :=
  if e ∈ l then l else l ++ [e]

/-- The peer-registration loop at the end of a successful session
(`crawler.connect_to_node`, lines 172-175): a routable peer not yet in
`discovered` or `crawled` enters `discovered`. -/
def addPeer (st : CrawlState) (p : String × Nat × Nat) : CrawlState :=
  if is_private_ip p.1 then st
  else if (p.1, p.2.1) ∈ st.discovered ∨ (p.1, p.2.1) ∈ st.crawled then st
  else { st with discovered := st.discovered ++ [(p.1, p.2.1)] }

/-- From `crawler.connect_to_node`: an endpoint already in `crawled` is
skipped; otherwise it is added to `crawled` first, and then, by outcome:
a transport failure adds it to `failed`; a protocol failure changes
nothing further; a completed session registers its peers and appends a
record for the endpoint. -/
def connect_to_node (st : CrawlState) (ip : String) (port : Nat)
    (res : SessionResult) : CrawlState :=
  if (ip, port) ∈ st.crawled then st
  else
    let st1 := { st with crawled := st.crawled ++ [(ip, port)] }
    match res with
    | .connectFail => { st1 with failed := setInsert (ip, port) st1.failed }
    | .protoFail => st1
    | .ok peers =>
      let st2 := peers.foldl addPeer st1
      { st2 with node_data := st2.node_data ++ [(ip, port)] }

/-- The seed phase of `crawler.crawl`: routable seeds enter `discovered`. -/
def seedPhase (seeds : List Endpoint) (st : CrawlState) : CrawlState :=
  seeds.foldl
    (fun s e => if is_private_ip e.1 then s else { s with discovered := setInsert e s.discovered })
    st

/-- One batch of `crawler.crawl`: the selected endpoints. -/
def selectBatch (mc : Nat) (st : CrawlState) : List Endpoint :=
  (st.discovered.filter (fun e => ¬ e ∈ st.crawled)).take mc

/-- Run the sessions of one batch in selection order. -/
def runBatch (oracle : Endpoint → SessionResult) (batch : List Endpoint)
    (st : CrawlState) : CrawlState :=
  batch.foldl (fun s e => connect_to_node s e.1 e.2 (oracle e)) st

/-- The iteration loop of `crawler.crawl`, indexed by fuel: while fewer
than `max_nodes` endpoints are crawled and `discovered` is non-empty,
select up to `max_concurrent` endpoints from `discovered \ crawled`, stop
if none remain, and otherwise run the batch and continue. -/
def crawlLoop (mc : Nat) (oracle : Endpoint → SessionResult) (max_nodes : Nat) :
    Nat → CrawlState → CrawlState
  | 0, st => st
  | fuel + 1, st =>
    if st.crawled.length < max_nodes ∧ st.discovered ≠ [] then
      let batch := selectBatch mc st
      if batch = [] then st
      else crawlLoop mc oracle max_nodes fuel (runBatch oracle batch st)
    else st

/-- From `crawler.crawl` on a fresh crawler: the seed phase followed by
the iteration loop.  Every iteration boundary of the source is the value
of this function at some fuel. -/
def crawl (seeds : List Endpoint) (max_nodes mc : Nat)
    (oracle : Endpoint → SessionResult) (fuel : Nat) : CrawlState :=
  crawlLoop mc oracle max_nodes fuel (seedPhase seeds initState)

deriving instance DecidableEq for Except

/-! ## Helper lemmas -/

theorem take_eq_of_len {l : List Nat} {k : Nat} (h : l.length = k) : l.take k = l := by
  subst h; exact List.take_length l

theorem varint_roundtrip (n : Nat) (h : n < 2 ^ 64) :
    varint_decode (varint_encode n) 0 = .ok (n, (varint_encode n).length) := by
  by_cases h1 : n < 0xFD
  · simp [varint_encode, varint_decode, h1]
  · by_cases h2 : n ≤ 0xFFFF
    · have hl : (leEnc 2 n).length = 2 := leEnc_length 2 n
      have hv : leDec ((leEnc 2 n).take 2) = n := by
        rw [take_eq_of_len hl]; exact leDec_leEnc 2 n (by omega)
      simp [varint_encode, varint_decode, h1, h2, hl, hv]
    · by_cases h3 : n ≤ 0xFFFFFFFF
      · have hl : (leEnc 4 n).length = 4 := leEnc_length 4 n
        have hv : leDec ((leEnc 4 n).take 4) = n := by
          rw [take_eq_of_len hl]; exact leDec_leEnc 4 n (by omega)
        simp [varint_encode, varint_decode, h1, h2, h3, hl, hv]
      · have hl : (leEnc 8 n).length = 8 := leEnc_length 8 n
        have hv : leDec ((leEnc 8 n).take 8) = n := by
          rw [take_eq_of_len hl]
          refine leDec_leEnc 8 n ?hlt
          have h64 : (256 : Nat) ^ 8 = 2 ^ 64 := by norm_num
          omega
        simp [varint_encode, varint_decode, h1, h2, h3, hl, hv]

/-! ## Claim C9 -/

set_option maxRecDepth 100000 in
/-- C9: `create_verack_message()` returns exactly 24 bytes: the mainnet
magic `F9 BE B4 D9`, the command bytes `76 65 72 61 63 6B` with six NULs,
the zero length field, and the checksum `5D F6 E0 E2`, the first four
bytes of the double SHA-256 of the empty payload. -/
theorem create_verack_message_bytes :
    create_verack_message =
      [0xF9, 0xBE, 0xB4, 0xD9,
       0x76, 0x65, 0x72, 0x61, 0x63, 0x6B, 0, 0, 0, 0, 0, 0,
       0, 0, 0, 0,
       0x5D, 0xF6, 0xE0, 0xE2] ∧
    create_verack_message.length = 24 ∧
    (dsha []).take 4 = [0x5D, 0xF6, 0xE0, 0xE2] := by decide

/-! ## Claim C4 -/

/-- C4: for every `n` below `2^64`, `varint_decode` applied to
`varint_encode n` at offset 0 returns `n` together with the encoding's
length, and the boundary inputs 0, 0xFC, 0xFD, 0xFFFF, 0x10000,
0xFFFFFFFF, 0x100000000 encode to lengths 1, 1, 3, 3, 5, 5, 9. -/
theorem varint_roundtrip_and_boundaries (n : Nat) (h : n < 2 ^ 64) :
    varint_decode (varint_encode n) 0 = .ok (n, (varint_encode n).length) ∧
    (varint_encode 0).length = 1 ∧ (varint_encode 0xFC).length = 1 ∧
    (varint_encode 0xFD).length = 3 ∧ (varint_encode 0xFFFF).length = 3 ∧
    (varint_encode 0x10000).length = 5 ∧ (varint_encode 0xFFFFFFFF).length = 5 ∧
    (varint_encode 0x100000000).length = 9 :=
  ⟨varint_roundtrip n h, by decide, by decide, by decide, by decide, by decide, by decide, by decide⟩

/-- Witness for C4 at the concrete input `0xFFFF`. -/
theorem varint_roundtrip_and_boundaries_witness :
    (0xFFFF : Nat) < 2 ^ 64 ∧
    varint_decode (varint_encode 0xFFFF) 0 = .ok (0xFFFF, (varint_encode 0xFFFF).length) :=
  ⟨by decide, (varint_roundtrip_and_boundaries 0xFFFF (by decide)).1⟩

/-! ## Claim C5 -/

/-- An `addr` payload holding a single record in the standard IPv4-mapped
form that `create_version_message.encode_ip` in the same module produces:
count 1, timestamp 1, services 0, IP field of 10 zero bytes, `FF FF` and
the four octets of `10.0.0.1`, then port 8333 big-endian. -/
def s4AddrPayload : List Nat :=
  [1] ++ leEnc 4 1 ++ leEnc 8 0 ++
    (List.replicate 10 0 ++ [0xFF, 0xFF] ++ [10, 0, 0, 1]) ++ beEnc 2 8333

/-- The same record reshaped into the form `parse_addr_message` actually
accepts: 12 zero bytes, `FF FF`, and only two remaining IP bytes. -/
def twelveZeroAddrPayload : List Nat :=
  [1] ++ leEnc 4 1 ++ leEnc 8 0 ++
    (List.replicate 12 0 ++ [0xFF, 0xFF] ++ [10, 0]) ++ beEnc 2 8333

/-- C5 (failing input): on the standard IPv4-mapped record for
`10.0.0.1:8333` the parser returns the empty list instead of the peer
`("10.0.0.1", 8333, 1)` — its prefix test wants 12 zero bytes where the
encoding (and the module's own `encode_ip`) writes 10 — and a record that
does satisfy the 12-zero-byte test yields the two-octet string `"10.0"`,
because `ip_bytes[14:18]` clips to two bytes.  Evaluated on the code. -/
theorem parse_addr_drops_standard_ipv4_mapped :
    parse_addr_message s4AddrPayload = [] ∧
    parse_addr_message twelveZeroAddrPayload = [("10.0", 8333, 1)] ∧
    ([] : List (String × Nat × Nat)) ≠ [("10.0.0.1", 8333, 1)] := by decide

/-! ## Claim C2 -/

/-- The length field of a frame header, `struct.unpack` of bytes 16..20. -/
def msgLenField (d : List Nat) : Nat := leDec ((d.drop 16).take 4)

/-- The claim's `Incomplete` condition: the 24-byte header is truncated,
or fewer than `24 + length` bytes are available. -/
def frameIncomplete (d : List Nat) : Prop :=
  d.length < 24 ∨ (24 ≤ d.length ∧ d.length < 24 + msgLenField d)

/-- The claim's `Malformed` condition: the magic differs from the mainnet
magic, the length field exceeds 2 MiB, or the checksum of the complete
payload does not match bytes 20..24. -/
def frameMalformed (d : List Nat) : Prop :=
  24 ≤ d.length ∧
    (leDec (d.take 4) ≠ MAINNET_MAGIC ∨ 2 * 1024 * 1024 < msgLenField d ∨
      (24 + msgLenField d ≤ d.length ∧
        (dsha ((d.drop 24).take (msgLenField d))).take 4 ≠ (d.drop 20).take 4))

instance (d : List Nat) : Decidable (frameIncomplete d) := by
  unfold frameIncomplete msgLenField; infer_instance

instance (d : List Nat) : Decidable (frameMalformed d) := by
  unfold frameMalformed msgLenField; infer_instance

/-- C2 (counterexample): `parse_message` does not distinguish the two
failure classes.  The empty buffer is incomplete and not malformed; 24
zero bytes are malformed (zero magic) and not incomplete; on both the
function returns the very same value `none`. -/
theorem parse_message_failure_outcomes_equal_cex :
    parse_message [] = none ∧ parse_message (List.replicate 24 0) = none ∧
    frameIncomplete ([] : List Nat) ∧ ¬ frameMalformed ([] : List Nat) ∧
    frameMalformed (List.replicate 24 0) ∧ ¬ frameIncomplete (List.replicate 24 0) ∧
    parse_message [] = parse_message (List.replicate 24 0) := by decide

/-- C2 (amended): `parse_message` signals both failure classes with the
single value `none`; it returns `none` exactly when the frame is
incomplete (header truncated, or fewer than `24 + length` bytes) or
malformed (magic mismatch, length above 2 MiB, or checksum mismatch). -/
theorem parse_message_none_iff_incomplete_or_malformed (d : List Nat) :
    parse_message d = none ↔ frameIncomplete d ∨ frameMalformed d := by
  unfold parse_message frameIncomplete frameMalformed msgLenField
  dsimp only
  split_ifs with h1 h2 h3 h4 h5
  · simp only [eq_self_iff_true, true_iff]
    exact Or.inl (Or.inl h1)
  · simp only [eq_self_iff_true, true_iff]
    exact Or.inr ⟨by omega, Or.inl h2⟩
  · simp only [eq_self_iff_true, true_iff]
    exact Or.inr ⟨by omega, Or.inr (Or.inl h3)⟩
  · simp only [eq_self_iff_true, true_iff]
    exact Or.inl (Or.inr ⟨by omega, by omega⟩)
  · simp only [eq_self_iff_true, true_iff]
    exact Or.inr ⟨by omega, Or.inr (Or.inr ⟨by omega, h5⟩)⟩
  · simp only [reduceCtorEq, false_iff]
    rintro (hinc | hmal)
    · rcases hinc with hlt | ⟨_, hlt⟩
      · omega
      · omega
    · rcases hmal with ⟨_, hmag | hlen | ⟨_, hck⟩⟩
      · exact h2 hmag
      · exact h3 hlen
      · exact h5 hck

/-! ## Claim C10 -/

/-- C10: `parse_message` is a total function of the byte string (the
embedding itself is a total Lean function, mirroring that every slice and
unpack in the source is guarded), and whenever it returns a pair, the
payload is at most 2 MiB long and the first four bytes of the double
SHA-256 of the payload equal bytes 20..24 of the frame. -/
theorem parse_message_payload_bounded_checksum (data cmd payload : List Nat)
    (h : parse_message data = some (cmd, payload)) :
    payload.length ≤ 2 * 1024 * 1024 ∧ (dsha payload).take 4 = (data.drop 20).take 4 := by
  unfold parse_message at h
  dsimp only at h
  split_ifs at h with h1 h2 h3 h4 h5
  rw [Option.some_inj, Prod.mk.injEq] at h
  obtain ⟨hcmd, hpl⟩ := h
  constructor
  · rw [← hpl]
    simp only [List.length_take]
    omega
  · rw [← hpl]
    exact not_not.mp h5

set_option maxRecDepth 100000 in
/-- Witness for C10 on the concrete verack frame. -/
theorem parse_message_payload_bounded_checksum_witness :
    parse_message create_verack_message = some ([0x76, 0x65, 0x72, 0x61, 0x63, 0x6B], []) ∧
    ([] : List Nat).length ≤ 2 * 1024 * 1024 ∧
    (dsha []).take 4 = (create_verack_message.drop 20).take 4 :=
  ⟨by decide,
   parse_message_payload_bounded_checksum create_verack_message
     [0x76, 0x65, 0x72, 0x61, 0x63, 0x6B] [] (by decide)⟩

/-! ## Claim C8 -/

theorem addrLoopE_never_errors (data : List Nat) :
    ∀ (k offset : Nat) (acc : List (String × Nat × Nat)),
      addrLoopE data k offset acc = .ok (addrLoopSoFar data k offset acc)
  | 0, _, _ => rfl
  | k + 1, offset, acc => by
    by_cases hlen : data.length < offset + 30
    · simp [addrLoopE, addrLoopSoFar, hlen]
    · have e4 : unpackLE 4 ((data.drop offset).take 4) =
          .ok (leDec ((data.drop offset).take 4)) := by
        have hl4 : ((data.drop offset).take 4).length = 4 := by
          simp [List.length_take, List.length_drop]; omega
        simp [unpackLE, hl4]
      have e8 : unpackLE 8 ((data.drop (offset + 4)).take 8) =
          .ok (leDec ((data.drop (offset + 4)).take 8)) := by
        have hl8 : ((data.drop (offset + 4)).take 8).length = 8 := by
          simp [List.length_take, List.length_drop]; omega
        simp [unpackLE, hl8]
      have e2 : unpackBE2 ((data.drop (offset + 28)).take 2) =
          .ok (beDec ((data.drop (offset + 28)).take 2)) := by
        have hl2 : ((data.drop (offset + 28)).take 2).length = 2 := by
          simp [List.length_take, List.length_drop]; omega
        simp [unpackBE2, hl2]
      simp only [addrLoopE, addrLoopSoFar, if_neg hlen, e4, e8, e2]
      split
      · exact addrLoopE_never_errors data k _ _
      · exact addrLoopE_never_errors data k _ _

/-- C8: `parse_addr_message` never raises — its embedding is a total
function, and the `except` handler of the source coincides on every input
with the partial-results reading of the specification: each structural
error point returns exactly the addresses parsed up to that point (the
only reachable error, a failing var-int count, occurs before any record
is parsed, and a record shorter than 30 bytes ends the loop keeping the
accumulator). -/
theorem parse_addr_message_eq_so_far (data : List Nat) :
    parse_addr_message data = parse_addr_so_far data := by
  unfold parse_addr_message parse_addr_so_far
  by_cases hl : data.length < 1
  · simp [hl]
  · simp only [hl, if_false]
    cases hv : varint_decode data 0 with
    | error e => rfl
    | ok co => simp [addrLoopE_never_errors data (min co.1 1000) co.2 []]

/-! ## Claim C3 -/

theorem dropWhile_zeros_replicate (k : Nat) (l : List Nat) :
    (List.replicate k 0 ++ l).dropWhile (fun b => b == 0) =
      l.dropWhile (fun b => b == 0) := by
  induction k with
  | zero => simp
  | succ k ih => simp [List.replicate_succ, List.dropWhile_cons, ih]

theorem rstripZeros_pad (cmd : List Nat) (k : Nat) (hz : cmd.getLast? ≠ some 0) :
    rstripZeros (cmd ++ List.replicate k 0) = cmd := by
  unfold rstripZeros
  rw [List.reverse_append, List.reverse_replicate, dropWhile_zeros_replicate]
  cases hc : cmd.reverse with
  | nil =>
    have : cmd = [] := by simpa using congrArg List.reverse hc
    simp [this]
  | cons a t =>
    have ha : a ≠ 0 := by
      intro h0
      apply hz
      rw [← List.head?_reverse, hc, h0]
      rfl
    rw [List.dropWhile_cons]
    simp only [ha, beq_iff_eq, if_false]
    rw [← hc, List.reverse_reverse]

/-- C3: encoding any command of at most 12 bytes with no trailing NUL and
any payload of at most 2 MiB into a mainnet frame and decoding the frame
at offset 0 recovers exactly the command and payload, and the frame's
length is `24 + len(payload)` — the offset by which the session loop
advances past the frame, so the next offset is the frame's length. -/
theorem create_parse_roundtrip (cmd payload : List Nat)
    (hc : cmd.length ≤ 12) (hz : cmd.getLast? ≠ some 0)
    (hp : payload.length ≤ 2 * 1024 * 1024) :
    parse_message (create_message cmd payload MAINNET_MAGIC) = some (cmd, payload) ∧
    (create_message cmd payload MAINNET_MAGIC).length = 24 + payload.length := by
  have hcmd12 : cmd.take 12 = cmd := List.take_of_length_le hc
  have hck4 : ((dsha payload).take 4).length = 4 := by
    simp [List.length_take, dsha_length]
  have e1 : create_message cmd payload MAINNET_MAGIC =
      leEnc 4 MAINNET_MAGIC ++
        ((cmd ++ List.replicate (12 - cmd.length) 0) ++
          (leEnc 4 payload.length ++ ((dsha payload).take 4 ++ payload))) := by
    unfold create_message
    rw [hcmd12]
    simp [List.append_assoc]
  have hpadlen : (cmd ++ List.replicate (12 - cmd.length) 0).length = 12 := by
    simp [List.length_append, List.length_replicate]; omega
  have hlen : (create_message cmd payload MAINNET_MAGIC).length = 24 + payload.length := by
    rw [e1]
    simp [List.length_append, leEnc_length, hpadlen, hck4]
    omega
  refine ⟨?roundtrip, hlen⟩
  have s0 : (create_message cmd payload MAINNET_MAGIC).take 4 = leEnc 4 MAINNET_MAGIC := by
    rw [e1]; exact List.take_left' (leEnc_length 4 _)
  have s1 : (create_message cmd payload MAINNET_MAGIC).drop 4 =
      (cmd ++ List.replicate (12 - cmd.length) 0) ++
        (leEnc 4 payload.length ++ ((dsha payload).take 4 ++ payload)) := by
    rw [e1]; exact List.drop_left' (leEnc_length 4 _)
  have m0 : leDec ((create_message cmd payload MAINNET_MAGIC).take 4) = MAINNET_MAGIC := by
    rw [s0]; exact leDec_leEnc 4 _ (by norm_num [MAINNET_MAGIC])
  have m1 : rstripZeros (((create_message cmd payload MAINNET_MAGIC).drop 4).take 12) = cmd := by
    rw [s1, List.take_left' hpadlen]
    exact rstripZeros_pad cmd _ hz
  have e2 : create_message cmd payload MAINNET_MAGIC =
      (leEnc 4 MAINNET_MAGIC ++ (cmd ++ List.replicate (12 - cmd.length) 0)) ++
        (leEnc 4 payload.length ++ ((dsha payload).take 4 ++ payload)) := by
    rw [e1]; simp only [List.append_assoc]
  have h16 : (leEnc 4 MAINNET_MAGIC ++ (cmd ++ List.replicate (12 - cmd.length) 0)).length = 16 := by
    simp [List.length_append, leEnc_length]; omega
  have m2 : leDec (((create_message cmd payload MAINNET_MAGIC).drop 16).take 4) =
      payload.length := by
    rw [e2, List.drop_left' h16, List.take_left' (leEnc_length 4 _)]
    refine leDec_leEnc 4 _ ?plt
    have h32 : (256 : Nat) ^ 4 = 4294967296 := by norm_num
    omega
  have e3 : create_message cmd payload MAINNET_MAGIC =
      ((leEnc 4 MAINNET_MAGIC ++ (cmd ++ List.replicate (12 - cmd.length) 0)) ++
          leEnc 4 payload.length) ++ ((dsha payload).take 4 ++ payload) := by
    rw [e2]; simp only [List.append_assoc]
  have h20 : ((leEnc 4 MAINNET_MAGIC ++ (cmd ++ List.replicate (12 - cmd.length) 0)) ++
      leEnc 4 payload.length).length = 20 := by
    simp [List.length_append, leEnc_length]; omega
  have m3 : ((create_message cmd payload MAINNET_MAGIC).drop 20).take 4 =
      (dsha payload).take 4 := by
    rw [e3, List.drop_left' h20, List.take_left' hck4]
  have e4 : create_message cmd payload MAINNET_MAGIC =
      (((leEnc 4 MAINNET_MAGIC ++ (cmd ++ List.replicate (12 - cmd.length) 0)) ++
          leEnc 4 payload.length) ++ (dsha payload).take 4) ++ payload := by
    rw [e3]; simp only [List.append_assoc]
  have h24 : (((leEnc 4 MAINNET_MAGIC ++ (cmd ++ List.replicate (12 - cmd.length) 0)) ++
      leEnc 4 payload.length) ++ (dsha payload).take 4).length = 24 := by
    simp [List.length_append, leEnc_length, hck4]; omega
  have m4 : ((create_message cmd payload MAINNET_MAGIC).drop 24).take payload.length =
      payload := by
    rw [e4, List.drop_left' h24, List.take_length]
  unfold parse_message
  dsimp only
  rw [if_neg (by omega)]
  rw [m0, if_neg (by simp)]
  rw [m2]
  rw [if_neg (by omega), if_neg (by omega)]
  rw [m4, m3, if_neg (by simp), m1]

set_option maxRecDepth 100000 in
/-- Witness for C3 on the bare `verack` command with an empty payload. -/
theorem create_parse_roundtrip_witness :
    ([0x76, 0x65, 0x72, 0x61, 0x63, 0x6B] : List Nat).length ≤ 12 ∧
    parse_message (create_message [0x76, 0x65, 0x72, 0x61, 0x63, 0x6B] [] MAINNET_MAGIC) =
      some ([0x76, 0x65, 0x72, 0x61, 0x63, 0x6B], []) ∧
    (create_message [0x76, 0x65, 0x72, 0x61, 0x63, 0x6B] [] MAINNET_MAGIC).length = 24 :=
  ⟨by decide,
   (create_parse_roundtrip [0x76, 0x65, 0x72, 0x61, 0x63, 0x6B] []
     (by decide) (by decide) (by decide)).1,
   (create_parse_roundtrip [0x76, 0x65, 0x72, 0x61, 0x63, 0x6B] []
     (by decide) (by decide) (by decide)).2⟩

/-! ## Crawl-state preservation lemmas -/

theorem mem_setInsert {e x : Endpoint} {l : List Endpoint} (h : e ∈ setInsert x l) :
    e = x ∨ e ∈ l := by
  unfold setInsert at h
  split at h
  · exact Or.inr h
  · rcases List.mem_append.mp h with h | h
    · exact Or.inr h
    · simp at h; exact Or.inl h

theorem addPeer_failed (st : CrawlState) (p : String × Nat × Nat) :
    (addPeer st p).failed = st.failed := by
  unfold addPeer; split_ifs <;> rfl

theorem addPeer_crawled (st : CrawlState) (p : String × Nat × Nat) :
    (addPeer st p).crawled = st.crawled := by
  unfold addPeer; split_ifs <;> rfl

theorem foldl_addPeer_failed :
    ∀ (peers : List (String × Nat × Nat)) (st : CrawlState),
      (peers.foldl addPeer st).failed = st.failed
  | [], _ => rfl
  | p :: ps, st => by
    rw [List.foldl_cons, foldl_addPeer_failed ps, addPeer_failed]

theorem foldl_addPeer_crawled :
    ∀ (peers : List (String × Nat × Nat)) (st : CrawlState),
      (peers.foldl addPeer st).crawled = st.crawled
  | [], _ => rfl
  | p :: ps, st => by
    rw [List.foldl_cons, foldl_addPeer_crawled ps, addPeer_crawled]

theorem connect_failed_subset (st : CrawlState) (ip : String) (port : Nat)
    (res : SessionResult) (h : ∀ e ∈ st.failed, e ∈ st.crawled) :
    ∀ e ∈ (connect_to_node st ip port res).failed,
      e ∈ (connect_to_node st ip port res).crawled := by
  intro e
  unfold connect_to_node
  split_ifs with hmem
  · exact h e
  · cases res with
    | connectFail =>
      dsimp only
      intro he
      rcases mem_setInsert he with rfl | hf
      · exact List.mem_append_right _ (by simp)
      · exact List.mem_append_left _ (h e hf)
    | protoFail =>
      dsimp only
      intro he
      exact List.mem_append_left _ (h e he)
    | ok peers =>
      dsimp only
      rw [foldl_addPeer_failed, foldl_addPeer_crawled]
      intro he
      exact List.mem_append_left _ (h e he)

theorem runBatch_failed_subset (oracle : Endpoint → SessionResult) :
    ∀ (batch : List Endpoint) (st : CrawlState),
      (∀ e ∈ st.failed, e ∈ st.crawled) →
      ∀ e ∈ (runBatch oracle batch st).failed, e ∈ (runBatch oracle batch st).crawled
  | [], _, h => h
  | b :: bs, st, h =>
    runBatch_failed_subset oracle bs _ (connect_failed_subset st b.1 b.2 (oracle b) h)

theorem seedPhase_failed :
    ∀ (seeds : List Endpoint) (st : CrawlState), (seedPhase seeds st).failed = st.failed
  | [], _ => rfl
  | e :: es, st => by
    unfold seedPhase
    rw [List.foldl_cons]
    have tail := seedPhase_failed es
    unfold seedPhase at tail
    rw [tail]
    split_ifs <;> rfl

theorem seedPhase_crawled :
    ∀ (seeds : List Endpoint) (st : CrawlState), (seedPhase seeds st).crawled = st.crawled
  | [], _ => rfl
  | e :: es, st => by
    unfold seedPhase
    rw [List.foldl_cons]
    have tail := seedPhase_crawled es
    unfold seedPhase at tail
    rw [tail]
    split_ifs <;> rfl

theorem crawlLoop_failed_subset (mc : Nat) (oracle : Endpoint → SessionResult) (mn : Nat) :
    ∀ (fuel : Nat) (st : CrawlState),
      (∀ e ∈ st.failed, e ∈ st.crawled) →
      ∀ e ∈ (crawlLoop mc oracle mn fuel st).failed, e ∈ (crawlLoop mc oracle mn fuel st).crawled
  | 0, _, h => h
  | fuel + 1, st, h => by
    unfold crawlLoop
    dsimp only
    split_ifs with hg hb
    · exact h
    · exact crawlLoop_failed_subset mc oracle mn fuel _
        (runBatch_failed_subset oracle _ st h)
    · exact h

/-! ## Claim C1 -/

/-- C1 (counterexample): after the first iteration of a crawl of the
single routable seed `1.2.3.4:8333` whose session fails, the endpoint is
simultaneously in `discovered` and in `crawled` — the scheduler adds a
selected endpoint to `crawled` but never removes it from `discovered`,
so `discovered ∩ crawled = ∅` fails at an iteration boundary. -/
theorem crawl_discovered_crawled_overlap_cex :
    ("1.2.3.4", 8333) ∈ (crawl [("1.2.3.4", 8333)] 10 500
      (fun _ => .connectFail) 1).discovered ∧
    ("1.2.3.4", 8333) ∈ (crawl [("1.2.3.4", 8333)] 10 500
      (fun _ => .connectFail) 1).crawled := by decide

/-- C1 (amended): at every iteration boundary of `crawl` the set
inclusion `crawled ⊇ failed` holds; a selected endpoint is added to
`crawled` (and to `failed` when its connection fails) but stays in
`discovered`, so only the difference `discovered \ crawled` — the
frontier actually selected from — is disjoint from `crawled`. -/
theorem crawl_failed_subset_crawled (seeds : List Endpoint) (mn mc : Nat)
    (oracle : Endpoint → SessionResult) (fuel : Nat) (e : Endpoint)
    (h : e ∈ (crawl seeds mn mc oracle fuel).failed) :
    e ∈ (crawl seeds mn mc oracle fuel).crawled := by
  refine crawlLoop_failed_subset mc oracle mn fuel _ ?base e h
  rw [seedPhase_failed]
  intro x hx
  simp [initState] at hx

/-- Witness for C1's amended theorem on a concrete failing crawl. -/
theorem crawl_failed_subset_crawled_witness :
    ("1.2.3.4", 8333) ∈ (crawl [("1.2.3.4", 8333)] 10 500
      (fun _ => .connectFail) 2).failed ∧
    ("1.2.3.4", 8333) ∈ (crawl [("1.2.3.4", 8333)] 10 500
      (fun _ => .connectFail) 2).crawled :=
  ⟨by decide,
   crawl_failed_subset_crawled [("1.2.3.4", 8333)] 10 500
     (fun _ => .connectFail) 2 ("1.2.3.4", 8333) (by decide)⟩

/-! ## Claim C6 -/

theorem connect_crawled_le (st : CrawlState) (ip : String) (port : Nat) (res : SessionResult) :
    (connect_to_node st ip port res).crawled.length ≤ st.crawled.length + 1 := by
  unfold connect_to_node
  split_ifs with hmem
  · omega
  · cases res with
    | connectFail => simp
    | protoFail => simp
    | ok peers => simp [foldl_addPeer_crawled]

theorem runBatch_crawled_le (oracle : Endpoint → SessionResult) :
    ∀ (batch : List Endpoint) (st : CrawlState),
      (runBatch oracle batch st).crawled.length ≤ st.crawled.length + batch.length
  | [], _ => Nat.le_refl _
  | b :: bs, st => by
    have h1 := connect_crawled_le st b.1 b.2 (oracle b)
    have h2 := runBatch_crawled_le oracle bs (connect_to_node st b.1 b.2 (oracle b))
    simp only [runBatch, List.foldl_cons] at h2 ⊢
    simp [List.length_cons]
    omega

theorem selectBatch_le (mc : Nat) (st : CrawlState) : (selectBatch mc st).length ≤ mc := by
  unfold selectBatch
  simp [List.length_take]

theorem crawlLoop_crawled_bound (mc : Nat) (oracle : Endpoint → SessionResult) (mn : Nat) :
    ∀ (fuel : Nat) (st : CrawlState),
      st.crawled.length ≤ mn + mc - 1 →
      (crawlLoop mc oracle mn fuel st).crawled.length ≤ mn + mc - 1
  | 0, _, h => h
  | fuel + 1, st, h => by
    unfold crawlLoop
    dsimp only
    split_ifs with hg hb
    · exact h
    · refine crawlLoop_crawled_bound mc oracle mn fuel _ ?bound
      have h1 := runBatch_crawled_le oracle (selectBatch mc st) st
      have h2 := selectBatch_le mc st
      have h3 : st.crawled.length < mn := hg.1
      omega
    · exact h

/-- C6: for every terminating invocation of `crawl` (every fuel value) the
final `crawled` set has at most `max_nodes + max_concurrent - 1` elements:
the loop only starts a batch while `|crawled| < max_nodes`, and a batch of
at most `max_concurrent` sessions adds at most that many endpoints, so
`max_nodes` is a soft ceiling (failed attempts included) exceedable only
by the last batch's overshoot. -/
theorem crawl_crawled_le_max_nodes_plus_concurrent (seeds : List Endpoint)
    (mn mc : Nat) (oracle : Endpoint → SessionResult) (fuel : Nat) :
    (crawl seeds mn mc oracle fuel).crawled.length ≤ mn + mc - 1 := by
  apply crawlLoop_crawled_bound
  rw [seedPhase_crawled]
  simp [initState]

/-! ## Claim C7 -/

theorem addPeer_discovered_inv (st : CrawlState) (p : String × Nat × Nat)
    (h : ∀ e ∈ st.discovered, is_private_ip e.1 = false) :
    ∀ e ∈ (addPeer st p).discovered, is_private_ip e.1 = false := by
  unfold addPeer
  split_ifs with hpriv hmem
  · exact h
  · exact h
  · intro e he
    rcases List.mem_append.mp he with he | he
    · exact h e he
    · simp at he
      subst he
      exact Bool.eq_false_iff.mpr hpriv

theorem foldl_addPeer_discovered_inv :
    ∀ (peers : List (String × Nat × Nat)) (st : CrawlState),
      (∀ e ∈ st.discovered, is_private_ip e.1 = false) →
      ∀ e ∈ (peers.foldl addPeer st).discovered, is_private_ip e.1 = false
  | [], _, h => h
  | p :: ps, st, h =>
    foldl_addPeer_discovered_inv ps (addPeer st p) (addPeer_discovered_inv st p h)

theorem connect_discovered_inv (st : CrawlState) (ip : String) (port : Nat)
    (res : SessionResult) (h : ∀ e ∈ st.discovered, is_private_ip e.1 = false) :
    ∀ e ∈ (connect_to_node st ip port res).discovered, is_private_ip e.1 = false := by
  unfold connect_to_node
  split_ifs with hmem
  · exact h
  · cases res with
    | connectFail => exact h
    | protoFail => exact h
    | ok peers =>
      dsimp only
      exact foldl_addPeer_discovered_inv peers _ h

theorem runBatch_discovered_inv (oracle : Endpoint → SessionResult) :
    ∀ (batch : List Endpoint) (st : CrawlState),
      (∀ e ∈ st.discovered, is_private_ip e.1 = false) →
      ∀ e ∈ (runBatch oracle batch st).discovered, is_private_ip e.1 = false
  | [], _, h => h
  | b :: bs, st, h =>
    runBatch_discovered_inv oracle bs _ (connect_discovered_inv st b.1 b.2 (oracle b) h)

theorem seedPhase_discovered_inv :
    ∀ (seeds : List Endpoint) (st : CrawlState),
      (∀ e ∈ st.discovered, is_private_ip e.1 = false) →
      ∀ e ∈ (seedPhase seeds st).discovered, is_private_ip e.1 = false
  | [], _, h => h
  | e :: es, st, h => by
    unfold seedPhase
    rw [List.foldl_cons]
    have tail := seedPhase_discovered_inv es
    unfold seedPhase at tail
    refine tail _ ?head
    split_ifs with hpriv
    · exact h
    · intro x hx
      rcases mem_setInsert hx with rfl | hx
      · exact Bool.eq_false_iff.mpr hpriv
      · exact h x hx

theorem crawlLoop_discovered_inv (mc : Nat) (oracle : Endpoint → SessionResult) (mn : Nat) :
    ∀ (fuel : Nat) (st : CrawlState),
      (∀ e ∈ st.discovered, is_private_ip e.1 = false) →
      ∀ e ∈ (crawlLoop mc oracle mn fuel st).discovered, is_private_ip e.1 = false
  | 0, _, h => h
  | fuel + 1, st, h => by
    unfold crawlLoop
    dsimp only
    split_ifs with hg hb
    · exact h
    · exact crawlLoop_discovered_inv mc oracle mn fuel _
        (runBatch_discovered_inv oracle _ st h)
    · exact h

/-- C7: no private, loopback or link-local address, and no string that
does not parse as an IPv4 dotted quad, ever enters `discovered` — neither
from the seed phase nor from peers registered during sessions: every
member of `discovered` in any crawl state parses as four octets that are
classified neither private nor loopback nor link-local; malformed strings
fail the parse, are treated as private by `is_private_ip`, and are
therefore excluded. -/
theorem crawl_discovered_only_routable (seeds : List Endpoint) (mn mc : Nat)
    (oracle : Endpoint → SessionResult) (fuel : Nat) (ip : String) (port : Nat)
    (h : (ip, port) ∈ (crawl seeds mn mc oracle fuel).discovered) :
    ∃ q, ipv4_parse ip = some q ∧
      (ipv4_is_private q || ipv4_is_loopback q || ipv4_is_link_local q) = false := by
  have hinv : ∀ e ∈ (crawl seeds mn mc oracle fuel).discovered, is_private_ip e.1 = false := by
    refine crawlLoop_discovered_inv mc oracle mn fuel _ ?base
    refine seedPhase_discovered_inv seeds initState ?init
    intro x hx
    simp [initState] at hx
  have hip : is_private_ip ip = false := hinv (ip, port) h
  unfold is_private_ip at hip
  cases hq : ipv4_parse ip with
  | none => rw [hq] at hip; simp at hip
  | some q =>
    rw [hq] at hip
    exact ⟨q, rfl, hip⟩

/-- Witness for C7 on a crawl seeded with the public endpoint
`8.8.8.8:53`. -/
theorem crawl_discovered_only_routable_witness :
    ("8.8.8.8", 53) ∈ (crawl [("8.8.8.8", 53)] 0 0 (fun _ => .connectFail) 0).discovered ∧
    ∃ q, ipv4_parse "8.8.8.8" = some q ∧
      (ipv4_is_private q || ipv4_is_loopback q || ipv4_is_link_local q) = false :=
  ⟨by decide,
   crawl_discovered_only_routable [("8.8.8.8", 53)] 0 0 (fun _ => .connectFail) 0
     "8.8.8.8" 53 (by decide)⟩
